import Mathlib

/-!
Verification development for the GrapheTP repository (src/main.py, src/ligne.py).

The file shallowly embeds the two core subsystems of src/main.py:
the tile cache and background prefetch manager (class TileManager),
and the GTFS schedule indexing engine (load_stop_times,
format_times_table) together with the Web Mercator projection
(project).  Every definition is translated from the source; theorems
below settle the specification claims against these definitions.
-/

namespace GrapheTP

/-! ## Tile cache and prefetch manager (src/main.py, class TileManager)

State model: `cache` is the in-memory dict `self.cache`, `disk` is the
set of files in the cache directory (one entry per written
`z_x_y.png` file, holding the bytes' decode behaviour), `queue` is
`self.queue`.  Dict and directory are modelled as association lists;
`lookupA` is dict/file lookup.  `pygame.image.load` is modelled by
`decode`: a file's bytes either decode to an image or raise. -/

structure TileKey where
  col : Int
  row : Int
  zoom : Nat
deriving DecidableEq, Repr

/-- Bytes stored in a tile file: either they decode to an image
(modelled as a number) or decoding raises (corrupt file). -/
inductive TileData where
  | good (img : Nat)
  | corrupt
deriving DecidableEq, Repr

/-- Model of `pygame.image.load(...)`: succeeds on good bytes, raises
(returns `none`) on corrupt bytes. -/
def decode : TileData → Option Nat
  | .good i => some i
  | .corrupt => none

/-- Association-list lookup, modelling Python dict lookup and the
per-key file lookup of the flat cache directory. -/
def lookupA {α β : Type} [DecidableEq α] : List (α × β) → α → Option β
  | [], _ => none
  | (k, v) :: rest, a => if k = a then some v else lookupA rest a

structure TMState where
  cache : List (TileKey × Nat)
  disk : List (TileKey × TileData)
  queue : List TileKey
deriving DecidableEq, Repr

/-- Lines 68-71 of src/main.py: under the lock, `if key not in
self.queue: self.queue.append(key)`. -/
def enqueue (q : List TileKey) (k : TileKey) : List TileKey :=
  if k ∈ q then q else q ++ [k]

/-- Lines 78-81 of src/main.py: under the lock, pop the last element
(`self.queue.pop(-1)`) if the queue is nonempty. -/
def popLast (q : List TileKey) : Option TileKey × List TileKey :=
  match q.getLast? with
  | none => (none, q)
  | some k => (some k, q.dropLast)

/-- `TileManager.get_tile` (src/main.py lines 49-73): memory cache
first; then the disk file, which on a successful decode is inserted
into the memory cache and returned, and on a decode exception is
passed over; finally the key is enqueued if not already pending and
`None` is returned. -/
def get_tile (s : TMState) (k : TileKey) : Option Nat × TMState :=
  match lookupA s.cache k with
  | some img => (some img, s)
  | none =>
    match lookupA s.disk k with
    | some d =>
      match decode d with
      | some img => (some img, { s with cache := s.cache ++ [(k, img)] })
      | none => (none, { s with queue := enqueue s.queue k })
    | none => (none, { s with queue := enqueue s.queue k })

/-- Outcome of `self.session.get(...)`: a 200-status response carrying
bytes, or any failure (timeout, non-200 status, exception). -/
inductive FetchResult where
  | ok (data : TileData)
  | failure
deriving Repr

/-- One iteration of `TileManager.worker` (src/main.py lines 75-101):
pop the most recent key; if its file already exists on disk, skip
(`continue`); otherwise fetch, and on a 200 status write the bytes to
the file.  The returned Bool records whether a network fetch was
performed during the iteration. -/
def workerStep (s : TMState) (fetch : TileKey → FetchResult) : TMState × Bool :=
  match popLast s.queue with
  | (none, _) => (s, false)
  | (some k, rest) =>
    if (lookupA s.disk k).isSome then ({ s with queue := rest }, false)
    else
      match fetch k with
      | .ok d => ({ s with queue := rest, disk := s.disk ++ [(k, d)] }, true)
      | .failure => ({ s with queue := rest }, true)

/-- States of the tile manager reachable from start-up: empty memory
cache and queue, arbitrary pre-existing disk cache (the cache
directory survives across sessions), evolving by `get_tile` calls from
the render loop and worker iterations. -/
inductive Reachable : TMState → Prop where
  | init (disk : List (TileKey × TileData)) : Reachable ⟨[], disk, []⟩
  | request (s : TMState) (k : TileKey) : Reachable s → Reachable (get_tile s k).2
  | work (s : TMState) (fetch : TileKey → FetchResult) :
      Reachable s → Reachable (workerStep s fetch).1

/-- Python `range(a, b)` over integers. -/
def intRange (a b : Int) : List Int :=
  (List.range (b - a).toNat).map fun i => a + i

/-- A TileKey is valid when its column was wrapped into [0, 2^zoom)
and its row lies in [0, 2^zoom). -/
def validKey (k : TileKey) : Prop :=
  0 ≤ k.col ∧ k.col < 2 ^ k.zoom ∧ 0 ≤ k.row ∧ k.row < 2 ^ k.zoom

instance (k : TileKey) : Decidable (validKey k) := by
  unfold validKey
  infer_instance

/-- The tile keys `main` passes to `TileManager.get_tile` (src/main.py
lines 343-350): for each col in range(start_col, end_col) and row in
range(start_row, end_row), the key (col % n, row, zoom) with n =
2**zoom, requested only when 0 <= row < n. -/
def requestedTileKeys (startCol endCol startRow endRow : Int) (zoom : Nat) : List TileKey :=
  (intRange startCol endCol).flatMap fun col =>
    (intRange startRow endRow).filterMap fun row =>
      let n : Int := 2 ^ zoom
      if 0 ≤ row ∧ row < n then some ⟨col % n, row, zoom⟩ else none

/-- Concrete tile-manager state for the corrupt-cached-file scenario:
empty memory cache, one corrupt file on disk for key (1,1,2), that key
pending in the queue. -/
def cexState : TMState :=
  ⟨[], [(⟨1, 1, 2⟩, TileData.corrupt)], [⟨1, 1, 2⟩]⟩

/-- A network that would answer every fetch with a decodable tile. -/
def cexFetch : TileKey → FetchResult :=
  fun _ => FetchResult.ok (TileData.good 7)

/-! ## GTFS schedule index builder (src/main.py, load_stop_times)

Rows arrive as field-keyed records; the loaders of
`load_trips_routes_calendar` produce the `trips` and `calendar` dicts
(trip_id to route/service, service_id to seven day-flag strings).
`load_stop_times` joins each stop-time row through them. -/

inductive DayType where
  | weekday
  | saturday
  | sunday
deriving DecidableEq, Repr

/-- A calendar row: the seven day flags, kept as the "0"/"1" strings
the code stores (src/main.py lines 136-144). -/
structure Service where
  monday : String
  tuesday : String
  wednesday : String
  thursday : String
  friday : String
  saturday : String
  sunday : String
deriving DecidableEq, Repr

/-- A trips row as stored: route_id and service_id
(src/main.py lines 113-116). -/
structure TripInfo where
  route_id : String
  service_id : String
deriving DecidableEq, Repr

/-- A stop_times row: the fields load_stop_times reads
(src/main.py lines 157-171). -/
structure StopTimeRow where
  stop_id : String
  trip_id : String
  departure_time : String
deriving DecidableEq, Repr

/-- Day-type membership (src/main.py lines 179-181): weekday is the OR
of the Mon..Fri flags compared against "1", saturday and sunday test
their single flag. -/
def dayMembership (sv : Service) : DayType → Bool
  | .weekday =>
      sv.monday == "1" || sv.tuesday == "1" || sv.wednesday == "1" ||
        sv.thursday == "1" || sv.friday == "1"
  | .saturday => sv.saturday == "1"
  | .sunday => sv.sunday == "1"

/-- Contribution of one stop_times row to the bucket of (stopId,
routeId, day) (src/main.py lines 157-188): rows whose trip or service
is unknown are skipped (`continue`), and otherwise the departure time
goes to the bucket of (row.stop_id, trip's route_id, day) exactly when
the day-type membership holds. -/
def joinRow (trips : List (String × TripInfo)) (calendar : List (String × Service))
    (stopId routeId : String) (day : DayType) (row : StopTimeRow) : Option String :=
  (lookupA trips row.trip_id).bind fun ti =>
    (lookupA calendar ti.service_id).bind fun sv =>
      if row.stop_id = stopId ∧ ti.route_id = routeId ∧ dayMembership sv day = true then
        some row.departure_time
      else none

/-- The unsorted bucket of departure times for one (stopId, routeId,
dayType): load_stop_times walks the rows in order and appends every
contribution. -/
def collectTimes (trips : List (String × TripInfo)) (calendar : List (String × Service))
    (rows : List StopTimeRow) (stopId routeId : String) (day : DayType) : List String :=
  rows.filterMap (joinRow trips calendar stopId routeId day)

/-- Python string comparison `a <= b` on the underlying character
sequences: lexicographic by code point. -/
def charListLe : List Char → List Char → Bool
  | [], _ => true
  | _ :: _, [] => false
  | a :: as, b :: bs =>
    if a < b then true
    else if b < a then false
    else charListLe as bs

/-- Python string comparison `a < b` on the underlying character
sequences: lexicographic by code point. -/
def charListLt : List Char → List Char → Bool
  | [], [] => false
  | [], _ :: _ => true
  | _ :: _, [] => false
  | a :: as, b :: bs =>
    if a < b then true
    else if b < a then false
    else charListLt as bs

/-- Python `a <= b` on strings. -/
abbrev pyLe (a b : String) : Prop := charListLe a.data b.data = true

/-- Python `a < b` on strings. -/
abbrev pyLt (a b : String) : Prop := charListLt a.data b.data = true

/-- Python `list.sort()` on "HH:MM:SS" strings (src/main.py line 197):
ascending in the lexicographic string order. -/
def sortTimes (l : List String) : List String :=
  l.insertionSort pyLe

/-- The final per-(stopId, routeId, dayType) departure list of the
index built by load_stop_times: the collected bucket, sorted. -/
def indexedTimes (trips : List (String × TripInfo)) (calendar : List (String × Service))
    (rows : List StopTimeRow) (stopId routeId : String) (day : DayType) : List String :=
  sortTimes (collectTimes trips calendar rows stopId routeId day)

/-- One trip t1 on route r1 with service S. -/
def tripsEx : List (String × TripInfo) := [("t1", ⟨"r1", "S"⟩)]

/-- Service S active Mon/Wed/Fri and Sat, not Sun. -/
def calEx : List (String × Service) := [("S", ⟨"1", "0", "1", "0", "1", "1", "0"⟩)]

/-- One stop-time row at 08:15:00 for trip t1. -/
def rowsEx : List StopTimeRow := [⟨"stop1", "t1", "08:15:00"⟩]

/-- Three stop-time rows with a duplicated time, for the sorting
example. -/
def rowsSortEx : List StopTimeRow :=
  [⟨"s", "t1", "09:05:00"⟩, ⟨"s", "t1", "08:59:00"⟩, ⟨"s", "t1", "09:05:00"⟩]

/-! ## Schedule grid formatter (src/main.py, format_times_table) -/

/-- Python `time_str.split(':')` on the character sequence: cut at
every separator, keeping empty fields. -/
def splitFields (sep : Char) : List Char → List (List Char)
  | [] => [[]]
  | c :: rest =>
    match splitFields sep rest with
    | [] => [[]]
    | f :: fs => if c = sep then [] :: f :: fs else (c :: f) :: fs

/-- Conversion of a digit sequence to a number, accumulator form. -/
def parseNatCore : List Char → Nat → Option Nat
  | [], acc => some acc
  | c :: cs, acc =>
    if ('0' ≤ c ∧ c ≤ '9') then
      parseNatCore cs (acc * 10 + (c.toNat - Char.toNat '0'))
    else none

/-- Python `int(field)` as used on "HH", "MM", "SS" fields: the value
of a nonempty digit sequence, failure (exception) otherwise. -/
def parseNat (cs : List Char) : Option Nat :=
  match cs with
  | [] => none
  | _ => parseNatCore cs 0

/-- `h, m, s = map(int, time_str.split(':'))` (src/main.py line 207):
yields the three numbers when the string has exactly three
colon-separated numeric fields, otherwise the row is skipped by the
surrounding try/except. -/
def parseTime (s : String) : Option (Nat × Nat × Nat) :=
  match (splitFields ':' s.data).map parseNat with
  | [some h, some m, some sec] => some (h, m, sec)
  | _ => none

/-- Python `sorted(list(set(xs)))` (src/main.py line 214): the
ascending list of the distinct elements. -/
def sortedDedup (l : List Nat) : List Nat :=
  l.dedup.insertionSort (· ≤ ·)

/-- The initial grid of src/main.py line 204: one empty bucket per
hour h in range(6, 23). -/
def gridInit : List (Nat × List Nat) :=
  (List.range' 6 17).map fun h => (h, ([] : List Nat))

/-- `grid[h].append(m)`: append m to the bucket of hour h. -/
def gridInsert (g : List (Nat × List Nat)) (h m : Nat) : List (Nat × List Nat) :=
  g.map fun p => if p.1 = h then (p.1, p.2 ++ [m]) else p

/-- Processing of one time string (src/main.py lines 205-211): parse
it, and if the hour lies in [6, 22] append the minute to that hour's
bucket; malformed strings and out-of-window hours leave the grid
unchanged. -/
def fillStep (g : List (Nat × List Nat)) (time_str : String) : List (Nat × List Nat) :=
  match parseTime time_str with
  | some (h, m, _) => if 6 ≤ h ∧ h ≤ 22 then gridInsert g h m else g
  | none => g

/-- `format_times_table` (src/main.py lines 202-215): fill the fixed
[6, 22] grid from the time list, then sort and deduplicate each
hour's bucket. -/
def format_times_table (times_list : List String) : List (Nat × List Nat) :=
  (times_list.foldl fillStep gridInit).map fun p => (p.1, sortedDedup p.2)

/-! ## Web Mercator projection (src/main.py, project, lines 24-29)

The float arithmetic of the source is modelled over the real numbers;
`math.sin` and `math.log` become `Real.sin` and `Real.log`. -/

/-- `sin_y` after the clamp: `min(max(sin(lat*pi/180), -0.9999), 0.9999)`. -/
noncomputable def sinClamped (lat : ℝ) : ℝ :=
  min (max (Real.sin (lat * Real.pi / 180)) (-0.9999)) 0.9999

/-- `project(lat, lon)`: x = 0.5 + lon/360,
y = 0.5 - log((1 + sin_y)/(1 - sin_y)) / (4*pi). -/
noncomputable def project (lat lon : ℝ) : ℝ × ℝ :=
  (0.5 + lon / 360,
    0.5 - Real.log ((1 + sinClamped lat) / (1 - sinClamped lat)) / (4 * Real.pi))

lemma nodup_enqueue {q : List TileKey} (h : q.Nodup) (k : TileKey) :
    (enqueue q k).Nodup := by
  unfold enqueue
  split
  · exact h
  · rename_i hk
    simpa [List.nodup_append] using ⟨h, hk⟩

lemma queue_get_tile (s : TMState) (k : TileKey) :
    (get_tile s k).2.queue = s.queue ∨ (get_tile s k).2.queue = enqueue s.queue k := by
  unfold get_tile
  rcases lookupA s.cache k with _ | img
  · rcases h : lookupA s.disk k with _ | d
    · simp
    · rcases d with i | _ <;> simp [decode]
  · simp

lemma queue_workerStep (s : TMState) (fetch : TileKey → FetchResult) :
    (workerStep s fetch).1.queue = s.queue ∨
      (workerStep s fetch).1.queue = s.queue.dropLast := by
  unfold workerStep popLast
  rcases s.queue.getLast? with _ | k
  · simp
  · simp only
    split
    · simp
    · rcases fetch k with d | _ <;> simp

lemma nodup_queue_of_reachable {s : TMState} (h : Reachable s) : s.queue.Nodup := by
  induction h with
  | init disk => exact List.nodup_nil
  | request s k _ ih =>
    rcases queue_get_tile s k with h' | h' <;> rw [h']
    · exact ih
    · exact nodup_enqueue ih k
  | work s fetch _ ih =>
    rcases queue_workerStep s fetch with h' | h' <;> rw [h']
    · exact ih
    · exact ih.sublist (List.dropLast_sublist _)

lemma popLast_enqueue_of_notMem {q : List TileKey} {k : TileKey} (hk : k ∉ q) :
    popLast (enqueue q k) = (some k, q) := by
  unfold enqueue popLast
  rw [if_neg hk]
  simp

lemma lookupA_append_left {α β : Type} [DecidableEq α]
    (l l' : List (α × β)) (a : α) (h : (lookupA l a).isSome) :
    lookupA (l ++ l') a = lookupA l a := by
  induction l with
  | nil => simp [lookupA] at h
  | cons p rest ih =>
    rcases p with ⟨k, v⟩
    by_cases hk : k = a
    · simp [lookupA, hk]
    · simp only [lookupA, if_neg hk] at h ⊢
      exact ih h

lemma workerStep_disk_preserved (s : TMState) (fetch : TileKey → FetchResult)
    (k : TileKey) (h : (lookupA s.disk k).isSome) :
    lookupA (workerStep s fetch).1.disk k = lookupA s.disk k := by
  unfold workerStep popLast
  rcases s.queue.getLast? with _ | k'
  · simp
  · simp only
    split
    · simp
    · rcases fetch k' with d | _
      · simpa using lookupA_append_left s.disk [(k', d)] k h
      · simp

/-- Claim C6 (confirmed): in every reachable tile-manager state the
pending queue contains each key at most once — requesting the same
unresolved key any number of times enqueues it at most once, and the
no-duplicate invariant is preserved by every `get_tile` push and every
worker pop. -/
theorem pending_queue_no_duplicates (s : TMState) (h : Reachable s) :
    s.queue.Nodup ∧ ∀ k : TileKey, s.queue.count k ≤ 1 :=
  ⟨nodup_queue_of_reachable h,
    fun k => List.nodup_iff_count_le_one.mp (nodup_queue_of_reachable h) k⟩

/-- Witness for C6: the state reached from an empty start by one
`get_tile` request has a duplicate-free queue. -/
theorem pending_queue_no_duplicates_witness :
    (get_tile ⟨[], [], []⟩ ⟨0, 0, 0⟩).2.queue.Nodup ∧
      ∀ k : TileKey, (get_tile ⟨[], [], []⟩ ⟨0, 0, 0⟩).2.queue.count k ≤ 1 :=
  pending_queue_no_duplicates _ (Reachable.request _ _ (Reachable.init []))

/-- Claim C8 (confirmed): a pop always removes the most recently
enqueued pending key; in particular keys enqueued in order a, b, c with
no intervening pops are popped starting with c (LIFO discipline). -/
theorem lifo_pop_most_recent :
    (∀ (q : List TileKey) (k : TileKey), k ∉ q → popLast (enqueue q k) = (some k, q)) ∧
      ∀ a b c : TileKey, a ≠ b → c ≠ a → c ≠ b →
        popLast (enqueue (enqueue (enqueue [] a) b) c) = (some c, [a, b]) := by
  refine ⟨fun q k hk => popLast_enqueue_of_notMem hk, fun a b c hab hca hcb => ?_⟩
  have h1 : enqueue [] a = [a] := by simp [enqueue]
  have h2 : enqueue [a] b = [a, b] := by simp [enqueue, Ne.symm hab]
  have h3 : c ∉ [a, b] := by simp [hca, hcb]
  rw [h1, h2, popLast_enqueue_of_notMem h3]

/-- Witness for C8: concrete keys enqueued in order, the third is
popped first. -/
theorem lifo_pop_most_recent_witness :
    popLast (enqueue [⟨0, 0, 0⟩] ⟨1, 0, 0⟩) = (some ⟨1, 0, 0⟩, [⟨0, 0, 0⟩]) ∧
      popLast (enqueue (enqueue (enqueue [] ⟨0, 0, 0⟩) ⟨1, 0, 0⟩) ⟨0, 1, 0⟩) =
        (some ⟨0, 1, 0⟩, [⟨0, 0, 0⟩, ⟨1, 0, 0⟩]) :=
  ⟨lifo_pop_most_recent.1 _ _ (by decide),
    lifo_pop_most_recent.2 _ _ _ (by decide) (by decide) (by decide)⟩

/-- Claim C7 (confirmed): a key already in the memory cache is returned
immediately with the state unchanged; a key whose file is on disk and
decodes is returned after being inserted into the memory cache, with
the queue unchanged (no enqueue) — and `get_tile` performs no network
access by construction (fetching happens only inside `workerStep`). -/
theorem disk_hit_no_refetch (s : TMState) (k : TileKey) (img : Nat) (d : TileData) :
    (lookupA s.cache k = some img → get_tile s k = (some img, s)) ∧
      (lookupA s.cache k = none → lookupA s.disk k = some d → decode d = some img →
        get_tile s k = (some img, { s with cache := s.cache ++ [(k, img)] })) := by
  constructor
  · intro hc
    unfold get_tile
    rw [hc]
  · intro hc hd hdec
    unfold get_tile
    rw [hc, hd]
    simp [hdec]

/-- Witness for C7: concrete memory-cache hit and concrete disk hit. -/
theorem disk_hit_no_refetch_witness :
    get_tile ⟨[(⟨0, 0, 1⟩, 5)], [(⟨1, 0, 1⟩, TileData.good 9)], []⟩ ⟨0, 0, 1⟩ =
        (some 5, ⟨[(⟨0, 0, 1⟩, 5)], [(⟨1, 0, 1⟩, TileData.good 9)], []⟩) ∧
      get_tile ⟨[(⟨0, 0, 1⟩, 5)], [(⟨1, 0, 1⟩, TileData.good 9)], []⟩ ⟨1, 0, 1⟩ =
        (some 9,
          { cache := [(⟨0, 0, 1⟩, 5)] ++ [(⟨1, 0, 1⟩, 9)],
            disk := [(⟨1, 0, 1⟩, TileData.good 9)], queue := [] }) :=
  ⟨(disk_hit_no_refetch ⟨[(⟨0, 0, 1⟩, 5)], [(⟨1, 0, 1⟩, TileData.good 9)], []⟩
      ⟨0, 0, 1⟩ 5 (TileData.good 9)).1 (by decide),
    (disk_hit_no_refetch ⟨[(⟨0, 0, 1⟩, 5)], [(⟨1, 0, 1⟩, TileData.good 9)], []⟩
      ⟨1, 0, 1⟩ 9 (TileData.good 9)).2 (by decide) (by decide) (by decide)⟩

/-- Counterexample for C1: with a corrupt cached file on disk for key
(1,1,2) and that key pending, `get_tile` indeed treats the decode
failure as a miss and re-enqueues, but the worker that pops the key
finds the file present, performs no network fetch (flag `false`) even
though the network would deliver a good tile, and leaves the corrupt
file on disk with the queue drained — the tile is never re-downloaded
or rewritten. -/
theorem corrupt_cached_tile_cex :
    (get_tile ⟨[], [(⟨1, 1, 2⟩, TileData.corrupt)], []⟩ ⟨1, 1, 2⟩).1 = none ∧
      (get_tile ⟨[], [(⟨1, 1, 2⟩, TileData.corrupt)], []⟩ ⟨1, 1, 2⟩).2.queue = [⟨1, 1, 2⟩] ∧
      workerStep cexState cexFetch =
        (⟨[], [(⟨1, 1, 2⟩, TileData.corrupt)], []⟩, false) := by
  decide

/-- Claim C1 (corrected): a decode failure is treated as a cache miss
and the key is re-enqueued, but a worker popping a key whose file is
on disk skips without fetching, and a worker step never changes the
disk entry of a key that already has a file — so the corrupt cached
file is never re-downloaded or rewritten. -/
theorem corrupt_tile_requeued_never_refetched
    (s : TMState) (k : TileKey) (d : TileData) (fetch : TileKey → FetchResult) :
    (lookupA s.cache k = none → lookupA s.disk k = some d → decode d = none →
      get_tile s k = (none, { s with queue := enqueue s.queue k })) ∧
      (s.queue.getLast? = some k → (lookupA s.disk k).isSome →
        workerStep s fetch = ({ s with queue := s.queue.dropLast }, false)) ∧
      ((lookupA s.disk k).isSome →
        lookupA (workerStep s fetch).1.disk k = lookupA s.disk k) := by
  refine ⟨?_, ?_, workerStep_disk_preserved s fetch k⟩
  · intro hc hd hdec
    unfold get_tile
    rw [hc, hd]
    simp [hdec]
  · intro hq hd
    unfold workerStep popLast
    rw [hq]
    simp only
    rw [if_pos hd]

/-- Claim C3 (confirmed): every tile key the main loop passes to a
cache or queue operation is valid — its column has been taken modulo
2^zoom and its row lies in [0, 2^zoom); invalid keys are never
requested. -/
theorem requested_keys_valid (startCol endCol startRow endRow : Int) (zoom : Nat)
    (k : TileKey) (hk : k ∈ requestedTileKeys startCol endCol startRow endRow zoom) :
    validKey k := by
  have hn : (0 : Int) < 2 ^ zoom := by positivity
  unfold requestedTileKeys at hk
  rw [List.mem_flatMap] at hk
  obtain ⟨col, -, hk⟩ := hk
  rw [List.mem_filterMap] at hk
  obtain ⟨row, -, hk⟩ := hk
  simp only at hk
  split at hk
  · rename_i hrow
    cases hk
    exact ⟨Int.emod_nonneg col (ne_of_gt hn), Int.emod_lt_of_pos col hn, hrow.1, hrow.2⟩
  · cases hk

/-- Witness for C3: a key from a concrete camera rectangle at zoom 3
is valid. -/
theorem requested_keys_valid_witness :
    (⟨0, 0, 3⟩ : TileKey) ∈ requestedTileKeys (-2) 3 (-1) 4 3 ∧ validKey ⟨0, 0, 3⟩ :=
  ⟨by decide, requested_keys_valid (-2) 3 (-1) 4 3 ⟨0, 0, 3⟩ (by decide)⟩

/-- Witness for C1's corrected statement at the concrete corrupt-file
state. -/
theorem corrupt_tile_requeued_never_refetched_witness :
    get_tile cexState ⟨1, 1, 2⟩ =
        (none, { cexState with queue := enqueue cexState.queue ⟨1, 1, 2⟩ }) ∧
      workerStep cexState cexFetch =
        ({ cexState with queue := cexState.queue.dropLast }, false) ∧
      lookupA (workerStep cexState cexFetch).1.disk ⟨1, 1, 2⟩ =
        lookupA cexState.disk ⟨1, 1, 2⟩ :=
  ⟨(corrupt_tile_requeued_never_refetched cexState ⟨1, 1, 2⟩ TileData.corrupt cexFetch).1
      (by decide) (by decide) (by decide),
    (corrupt_tile_requeued_never_refetched cexState ⟨1, 1, 2⟩ TileData.corrupt cexFetch).2.1
      (by decide) (by decide),
    (corrupt_tile_requeued_never_refetched cexState ⟨1, 1, 2⟩ TileData.corrupt cexFetch).2.2
      (by decide)⟩

/-- Claim C4 (confirmed): for the Mon/Wed/Fri+Sat service, the indexed
departure 08:15:00 appears under both the weekday and the saturday
buckets of (stop1, r1) and not under sunday; and in general a time is
in a bucket exactly when some stop-time row resolves through its trip
and service and the day-type membership (weekday = OR of Mon..Fri,
saturday = Sat flag, sunday = Sun flag) holds. -/
theorem schedule_join_day_buckets :
    (indexedTimes tripsEx calEx rowsEx "stop1" "r1" DayType.weekday = ["08:15:00"] ∧
      indexedTimes tripsEx calEx rowsEx "stop1" "r1" DayType.saturday = ["08:15:00"] ∧
      indexedTimes tripsEx calEx rowsEx "stop1" "r1" DayType.sunday = []) ∧
    ∀ (trips : List (String × TripInfo)) (cal : List (String × Service))
      (rows : List StopTimeRow) (stopId routeId : String) (day : DayType) (t : String),
      t ∈ collectTimes trips cal rows stopId routeId day ↔
        ∃ row ∈ rows, row.stop_id = stopId ∧ row.departure_time = t ∧
          ∃ ti, lookupA trips row.trip_id = some ti ∧ ti.route_id = routeId ∧
            ∃ sv, lookupA cal ti.service_id = some sv ∧ dayMembership sv day = true := by
  refine ⟨by decide, ?_⟩
  intro trips cal rows stopId routeId day t
  unfold collectTimes
  rw [List.mem_filterMap]
  constructor
  · rintro ⟨row, hrow, hf⟩
    unfold joinRow at hf
    rw [Option.bind_eq_some] at hf
    obtain ⟨ti, hti, hf⟩ := hf
    rw [Option.bind_eq_some] at hf
    obtain ⟨sv, hsv, hf⟩ := hf
    rw [Option.ite_none_right_eq_some, Option.some.injEq] at hf
    obtain ⟨⟨hstop, hroute, hday⟩, hdep⟩ := hf
    exact ⟨row, hrow, hstop, hdep, ti, hti, hroute, sv, hsv, hday⟩
  · rintro ⟨row, hrow, hstop, hdep, ti, hti, hroute, sv, hsv, hday⟩
    refine ⟨row, hrow, ?_⟩
    unfold joinRow
    rw [hti, Option.some_bind, hsv, Option.some_bind, if_pos ⟨hstop, hroute, hday⟩, hdep]

lemma charListLe_total : ∀ as bs : List Char,
    charListLe as bs = true ∨ charListLe bs as = true := by
  intro as
  induction as with
  | nil => intro bs; exact Or.inl rfl
  | cons a as ih =>
    intro bs
    cases bs with
    | nil => exact Or.inr rfl
    | cons b bs =>
      rcases lt_trichotomy a b with h | h | h
      · exact Or.inl (by simp [charListLe, h])
      · subst h
        rcases ih bs with h' | h'
        · exact Or.inl (by simp [charListLe, lt_self_iff_false, h'])
        · exact Or.inr (by simp [charListLe, lt_self_iff_false, h'])
      · exact Or.inr (by simp [charListLe, h])

lemma charListLe_trans : ∀ as bs cs : List Char,
    charListLe as bs = true → charListLe bs cs = true → charListLe as cs = true := by
  intro as
  induction as with
  | nil => intro bs cs _ _; rfl
  | cons a as ih =>
    intro bs cs h1 h2
    cases bs with
    | nil => simp [charListLe] at h1
    | cons b bs =>
      cases cs with
      | nil => simp [charListLe] at h2
      | cons c cs =>
        rcases lt_trichotomy a b with hab | hab | hab
        · rcases lt_trichotomy b c with hbc | hbc | hbc
          · simp [charListLe, lt_trans hab hbc]
          · subst hbc; simp [charListLe, hab]
          · simp [charListLe, asymm hbc, hbc] at h2
        · subst hab
          rcases lt_trichotomy a c with hac | hac | hac
          · simp [charListLe, hac]
          · subst hac
            simp [charListLe, lt_self_iff_false] at h1 h2 ⊢
            exact ih _ _ h1 h2
          · simp [charListLe, asymm hac, hac] at h2
        · simp [charListLe, asymm hab, hab] at h1

lemma charListLt_of_lt_of_le : ∀ as bs cs : List Char,
    charListLt as bs = true → charListLe bs cs = true → charListLt as cs = true := by
  intro as
  induction as with
  | nil =>
    intro bs cs h1 h2
    cases bs with
    | nil => simp [charListLt] at h1
    | cons b bs =>
      cases cs with
      | nil => simp [charListLe] at h2
      | cons c cs => simp [charListLt]
  | cons a as ih =>
    intro bs cs h1 h2
    cases bs with
    | nil => simp [charListLt] at h1
    | cons b bs =>
      cases cs with
      | nil => simp [charListLe] at h2
      | cons c cs =>
        rcases lt_trichotomy a b with hab | hab | hab
        · rcases lt_trichotomy b c with hbc | hbc | hbc
          · simp [charListLt, lt_trans hab hbc]
          · subst hbc; simp [charListLt, hab]
          · simp [charListLe, asymm hbc, hbc] at h2
        · subst hab
          rcases lt_trichotomy a c with hac | hac | hac
          · simp [charListLt, hac]
          · subst hac
            simp [charListLt, lt_self_iff_false] at h1 ⊢
            simp [charListLe, lt_self_iff_false] at h2
            exact ih _ _ h1 h2
          · simp [charListLe, asymm hac, hac] at h2
        · simp [charListLt, asymm hab, hab] at h1

/-- Claim C5 (confirmed): every indexed departure list is the
ascending sort of its bucket (sorted in the lexicographic string
order, duplicates preserved as a permutation of the appended times);
the concrete duplicate example sorts as stated; and any time at or
after "24:00:00" sorts strictly after "23:59:59". -/
theorem departure_lists_sorted :
    (∀ (trips : List (String × TripInfo)) (cal : List (String × Service))
      (rows : List StopTimeRow) (stopId routeId : String) (day : DayType),
      List.Sorted pyLe (indexedTimes trips cal rows stopId routeId day) ∧
        (indexedTimes trips cal rows stopId routeId day).Perm
          (collectTimes trips cal rows stopId routeId day)) ∧
    indexedTimes tripsEx calEx rowsSortEx "s" "r1" DayType.weekday =
      ["08:59:00", "09:05:00", "09:05:00"] ∧
    ∀ t : String, pyLe "24:00:00" t → pyLt "23:59:59" t := by
  haveI : IsTotal String pyLe := ⟨fun a b => charListLe_total a.data b.data⟩
  haveI : IsTrans String pyLe := ⟨fun a b c => charListLe_trans a.data b.data c.data⟩
  refine ⟨fun trips cal rows stopId routeId day =>
    ⟨List.sorted_insertionSort _ _, List.perm_insertionSort _ _⟩, by decide, ?_⟩
  intro t ht
  exact charListLt_of_lt_of_le _ _ _ (by decide) ht

/-- Witness for C5: a concrete next-day time sorts after 23:59:59. -/
theorem departure_lists_sorted_witness :
    pyLe "24:00:00" "25:30:00" ∧ pyLt "23:59:59" "25:30:00" :=
  ⟨by decide, departure_lists_sorted.2.2 "25:30:00" (by decide)⟩

/-- Claim C2 (confirmed): the example times produce the grid whose
only nonempty bucket is hour 7 with minutes [5, 45]; the 23:xx and
05:xx times are dropped silently (no bucket exists outside the [6, 22]
window); and two times in the same hour sharing a minute and differing
only in seconds collapse to a single minute entry. -/
theorem grid_formatting_example :
    format_times_table ["07:05:00", "07:45:00", "23:10:00", "05:30:00"] =
      [(6, []), (7, [5, 45]), (8, []), (9, []), (10, []), (11, []), (12, []), (13, []),
        (14, []), (15, []), (16, []), (17, []), (18, []), (19, []), (20, []), (21, []),
        (22, [])] ∧
      lookupA (format_times_table ["07:05:00", "07:45:00", "23:10:00", "05:30:00"]) 23 =
        none ∧
      lookupA (format_times_table ["07:05:00", "07:45:00", "23:10:00", "05:30:00"]) 5 =
        none ∧
      format_times_table ["07:05:10", "07:05:20"] =
        [(6, []), (7, [5]), (8, []), (9, []), (10, []), (11, []), (12, []), (13, []),
          (14, []), (15, []), (16, []), (17, []), (18, []), (19, []), (20, []), (21, []),
          (22, [])] := by
  decide

lemma sortedDedup_sorted (l : List Nat) : List.Sorted (· < ·) (sortedDedup l) := by
  have hs : List.Sorted (· ≤ ·) (l.dedup.insertionSort (· ≤ ·)) :=
    List.sorted_insertionSort _ _
  have hn : (l.dedup.insertionSort (· ≤ ·)).Nodup :=
    (List.perm_insertionSort _ _).nodup_iff.mpr (List.nodup_dedup l)
  exact hs.lt_of_le hn

lemma mapFst_gridInsert (g : List (Nat × List Nat)) (h m : Nat) :
    (gridInsert g h m).map Prod.fst = g.map Prod.fst := by
  unfold gridInsert
  rw [List.map_map]
  apply List.map_congr_left
  intro p _
  by_cases hp : p.1 = h <;> simp [hp]

lemma mapFst_fillStep (g : List (Nat × List Nat)) (t : String) :
    (fillStep g t).map Prod.fst = g.map Prod.fst := by
  unfold fillStep
  rcases parseTime t with _ | ⟨h, m, sec⟩
  · rfl
  · by_cases hw : 6 ≤ h ∧ h ≤ 22
    · simp [hw, mapFst_gridInsert]
    · simp [hw]

lemma mapFst_foldl (times : List String) :
    ∀ g : List (Nat × List Nat),
      (times.foldl fillStep g).map Prod.fst = g.map Prod.fst := by
  induction times with
  | nil => intro g; rfl
  | cons t ts ih =>
    intro g
    rw [List.foldl_cons, ih, mapFst_fillStep]

lemma mapFst_gridInit : gridInit.map Prod.fst = List.range' 6 17 := by
  unfold gridInit
  rw [List.map_map]
  have hcomp : (Prod.fst ∘ fun h : Nat => (h, ([] : List Nat))) = id := rfl
  rw [hcomp, List.map_id]

/-- Claim C10 (confirmed): for every input list, the grid's key
sequence is exactly the hours 6 through 22 (hours with no departures
are present with an empty bucket), and every bucket is a strictly
increasing, duplicate-free list of minutes. -/
theorem grid_keys_and_buckets (times : List String) :
    (format_times_table times).map Prod.fst = List.range' 6 17 ∧
      ∀ p ∈ format_times_table times, List.Sorted (· < ·) p.2 := by
  constructor
  · unfold format_times_table
    rw [List.map_map]
    have hcomp :
        (Prod.fst ∘ fun p : Nat × List Nat => (p.1, sortedDedup p.2)) = Prod.fst := rfl
    rw [hcomp, mapFst_foldl, mapFst_gridInit]
  · intro p hp
    unfold format_times_table at hp
    rw [List.mem_map] at hp
    obtain ⟨q, -, rfl⟩ := hp
    exact sortedDedup_sorted q.2

/-- Witness for C10 at a concrete input: the keys are 6..22 and the
bucket (7, [5]) of the grid for ["07:05:00"] is strictly increasing. -/
theorem grid_keys_and_buckets_witness :
    (format_times_table ["07:05:00"]).map Prod.fst = List.range' 6 17 ∧
      List.Sorted (· < ·) ((7, ([5] : List Nat)) : Nat × List Nat).2 :=
  ⟨(grid_keys_and_buckets ["07:05:00"]).1,
    (grid_keys_and_buckets ["07:05:00"]).2 (7, [5]) (by decide)⟩

lemma sinClamped_bounds (lat : ℝ) :
    -0.9999 ≤ sinClamped lat ∧ sinClamped lat ≤ 0.9999 := by
  unfold sinClamped
  exact ⟨le_min (le_max_right _ _) (by norm_num), min_le_right _ _⟩

lemma sinClamped_mono {lat₁ lat₂ : ℝ} (h1 : -90 ≤ lat₁) (h12 : lat₁ ≤ lat₂)
    (h2 : lat₂ ≤ 90) : sinClamped lat₁ ≤ sinClamped lat₂ := by
  have hpi := Real.pi_pos
  have hs : Real.sin (lat₁ * Real.pi / 180) ≤ Real.sin (lat₂ * Real.pi / 180) := by
    apply Real.sin_le_sin_of_le_of_le_pi_div_two
    · nlinarith [mul_nonneg (by linarith : (0 : ℝ) ≤ lat₁ + 90) hpi.le]
    · nlinarith [mul_nonneg (by linarith : (0 : ℝ) ≤ 90 - lat₂) hpi.le]
    · nlinarith [mul_nonneg (by linarith : (0 : ℝ) ≤ lat₂ - lat₁) hpi.le]
  exact min_le_min (max_le_max hs le_rfl) le_rfl

/-- Claim C9 (confirmed over the real-number reading of the float
formulas): project(0, 0) = (0.5, 0.5); for any fixed longitude the y
output grows as lat decreases over the latitude range [-90, 90]; and
the clamp keeps sinLat within [-0.9999, 0.9999], so the logarithm's
argument is strictly positive and project has no error case. -/
theorem projection_properties :
    project 0 0 = (0.5, 0.5) ∧
      (∀ lat₁ lat₂ lon : ℝ, -90 ≤ lat₁ → lat₁ ≤ lat₂ → lat₂ ≤ 90 →
        (project lat₂ lon).2 ≤ (project lat₁ lon).2) ∧
      ∀ lat : ℝ, -0.9999 ≤ sinClamped lat ∧ sinClamped lat ≤ 0.9999 ∧
        0 < (1 + sinClamped lat) / (1 - sinClamped lat) := by
  refine ⟨?_, ?_, ?_⟩
  · have hsc : sinClamped 0 = 0 := by
      unfold sinClamped
      rw [zero_mul, zero_div, Real.sin_zero]
      rw [max_eq_left (by norm_num), min_eq_left (by norm_num)]
    unfold project
    rw [hsc]
    norm_num
  · intro lat₁ lat₂ lon h1 h12 h2
    have hc := sinClamped_mono h1 h12 h2
    obtain ⟨hb1l, hb1u⟩ := sinClamped_bounds lat₁
    obtain ⟨hb2l, hb2u⟩ := sinClamped_bounds lat₂
    unfold project
    simp only
    have harg : (1 + sinClamped lat₁) / (1 - sinClamped lat₁) ≤
        (1 + sinClamped lat₂) / (1 - sinClamped lat₂) := by
      rw [div_le_div_iff₀ (by linarith) (by linarith)]
      nlinarith
    have hpos : 0 < (1 + sinClamped lat₁) / (1 - sinClamped lat₁) :=
      div_pos (by linarith) (by linarith)
    have hlog := Real.log_le_log hpos harg
    have h4pi : 0 < 4 * Real.pi := by positivity
    have hdiv :
        Real.log ((1 + sinClamped lat₁) / (1 - sinClamped lat₁)) / (4 * Real.pi) ≤
          Real.log ((1 + sinClamped lat₂) / (1 - sinClamped lat₂)) / (4 * Real.pi) :=
      (div_le_div_iff_of_pos_right h4pi).mpr hlog
    linarith
  · intro lat
    obtain ⟨hl, hu⟩ := sinClamped_bounds lat
    exact ⟨hl, hu, div_pos (by linarith) (by linarith)⟩

/-- Witness for C9: the monotonicity at the concrete latitudes 0 and
45 at longitude 7. -/
theorem projection_properties_witness :
    ((-90 : ℝ) ≤ 0 ∧ (0 : ℝ) ≤ 45 ∧ (45 : ℝ) ≤ 90) ∧
      (project 45 7).2 ≤ (project 0 7).2 :=
  ⟨⟨by norm_num, by norm_num, by norm_num⟩,
    projection_properties.2.1 0 45 7 (by norm_num) (by norm_num) (by norm_num)⟩

end GrapheTP
